import Mathlib

/-!
Shallow embedding of `cloudtay/ripple-kernel` (src/lib/src/{bridge.rs, ops.rs, lib.rs}).

The program is a small FFI library: a runtime-directory registry guarding the
side-channel FIFO path (`bridge.rs`), a fire-and-forget completion notifier
(`bridge.rs::notify_ready`), synchronous and asynchronous file reads
(`ops.rs::file_get_contents`, `ops.rs::file_get_contents_async`) and a
platform-dispatched file-transfer engine (`ops.rs::sendfile_impl`,
`ops.rs::process_file`).

The OS environment is made explicit:
- the filesystem is a function `String → Option Bytes` (file contents);
- the registry singleton (`RUNTIME_DIR`), the environment variable
  `RIPPLE_RUNTIME_DIR` and the current working directory are explicit
  `Option String` arguments;
- each `sendfile(2)` syscall's outcome is drawn from an explicit oracle list
  (`SfStep`), and the fallback copy loop's read/write outcomes from `FbStep`;
- bytes are `Nat` (values < 256 where relevant), buffers are `List Nat`,
  and the asynchronous buffer-at-return is `List (Option Nat)` with `none`
  marking a not-yet-filled byte.
-/

namespace RippleKernel

/-- A byte sequence (each entry is a byte value). -/
abbrev Bytes := List Nat

/-- `u32::to_be_bytes`: the 4-byte big-endian encoding of a 32-bit value
(`bridge.rs` line 60, `request_id.to_be_bytes()`). -/
def u32BeBytes (n : Nat) : Bytes :=
  [n / 2 ^ 24 % 256, n / 2 ^ 16 % 256, n / 2 ^ 8 % 256, n % 256]

/-- Big-endian value of a byte list (most significant byte first); used to
check that `u32BeBytes` really is the big-endian encoding. -/
def beValue (bs : Bytes) : Nat :=
  List.foldl (fun a b => a * 256 + b) 0 bs

/-! ## bridge.rs -/

/-- `bridge.rs::set_runtime_dir` (lines 12-14): `RUNTIME_DIR.set` on a
`OnceCell` succeeds only when the cell is empty; a later call is a no-op.
The registry state is `Option String` (`none` = never initialized). -/
def set_runtime_dir (st : Option String) (dir : String) : Option String :=
  match st with
  | some d => some d
  | none => some dir

/-- `bridge.rs::fifo_path` (lines 17-35): if the registry holds a directory,
return `<dir>/bridge.fifo`; else if the `RIPPLE_RUNTIME_DIR` environment
variable is set, return `<env>/bridge.fifo`; else use the current working
directory, falling back to the literal `"../file"` when it is unavailable.
`PathBuf::push` of a relative component is modelled as appending
`"/bridge.fifo"`. -/
def fifo_path (st : Option String) (env : Option String) (cwd : Option String) : String :=
  match st with
  | some d => d ++ "/bridge.fifo"
  | none =>
    match env with
    | some d => d ++ "/bridge.fifo"
    | none => cwd.getD "../file" ++ "/bridge.fifo"

/-- `bridge.rs::link` (lines 39-54): decode the argument (`none` models a null
pointer or invalid UTF-8), fall back to the current working directory or the
literal `"../file"`, call `set_runtime_dir`, and return 0 unconditionally.
The result is the new registry state paired with the status code. -/
def link (st : Option String) (arg : Option String) (cwd : Option String) :
    Option String × Int :=
  let dir :=
    match arg with
    | some s => s
    | none => cwd.getD "../file"
  (set_runtime_dir st dir, 0)

/-- `bridge.rs::notify_ready` (lines 57-64): open the FIFO write-only (no
create flag, so a missing file fails to open and the failure is swallowed),
then write the 4-byte big-endian encoding of the 32-bit request id.
State: `fifo` is the side-channel file's contents (`none` = no file exists).
Result: the file state afterwards, paired with the bytes written. -/
def notify_ready (fifo : Option Bytes) (rid : Nat) : Option Bytes × Bytes :=
  match fifo with
  | some c => (some (c ++ u32BeBytes rid), u32BeBytes rid)
  | none => (none, [])

/-! ## ops.rs: reads -/

/-- `ops.rs::file_get_contents` (lines 12-30): a null or non-UTF-8 path
(modelled by `path = none`) or a failing `fs::read` returns null (`none`);
otherwise the content with a trailing 0 byte pushed (`contents.push(0)`). -/
def file_get_contents (fs : String → Option Bytes) (path : Option String) :
    Option Bytes :=
  match path with
  | none => none
  | some p =>
    match fs p with
    | none => none
    | some contents => some (contents ++ [0])

/-- Outcome of the background worker's `file.read_exact` call in
`ops.rs::file_get_contents_async` (line 62): it may fill the whole slice,
fill only a prefix, or fail outright; the code ignores the result
(`let _ = file.read_exact(slice)`). -/
inductive ReadOutcome where
  | ok : ReadOutcome
  | short (n : Nat) : ReadOutcome
  | failed : ReadOutcome
  deriving Repr, DecidableEq

/-- Arguments the spawned worker passes to `notify_ready` (`ops.rs` line 64:
`notify_ready(request_id as u32)`): exactly one call, with the request id
truncated to 32 bits, regardless of the read outcome. -/
def workerNotifies (request_id : Nat) (outcome : ReadOutcome) : List Nat :=
  match outcome with
  | _ => [request_id % 2 ^ 32]

/-- What `ops.rs::file_get_contents_async` has produced at the moment it
returns: the buffer handed to the caller (contents at return time, `none`
entries are uninitialized bytes; the outer `none` is a null return), and the
list of `notify_ready` arguments the spawned worker will issue. -/
structure AsyncReturn where
  buffer : Option (List (Option Nat))
  notifies : List Nat
  deriving Repr, DecidableEq

/-- `ops.rs::file_get_contents_async` (lines 34-68): null / non-UTF-8 path or
failing open returns null with no worker spawned; otherwise a buffer of
`size + 1` bytes is allocated with only its final byte written
(`*buf.as_mut_ptr().add(size) = 0`) and its address returned while a worker
fills bytes `[0, size)` and then calls `notify_ready(request_id as u32)`. -/
def file_get_contents_async (fs : String → Option Bytes) (path : Option String)
    (request_id : Nat) (outcome : ReadOutcome) : AsyncReturn :=
  match path with
  | none => ⟨none, []⟩
  | some p =>
    match fs p with
    | none => ⟨none, []⟩
    | some contents =>
      let size := contents.length
      ⟨some (List.replicate size none ++ [some 0]), workerNotifies request_id outcome⟩

/-! ## ops.rs: transfer engine (linux / macOS sendfile paths) -/

/-- Outcome of one `sendfile(2)` syscall, drawn from an oracle list.
`transfer k` is a successful call in which the kernel moves
`min k (min remaining (fileLen - offset))` bytes (so `k` models a possibly
short kernel transfer); `eagain` / `eintr` are the transient errors the code
retries (`ops.rs` line 134 `Some(11) | Some(4)` on linux, line 97
`Some(11) | Some(35) | Some(4)` on macOS, both modelled as transferring
nothing); `fatal` is any other errno. -/
inductive SfStep where
  | eagain : SfStep
  | eintr : SfStep
  | fatal : SfStep
  | transfer (k : Nat) : SfStep
  deriving Repr, DecidableEq

/-- An oracle step that cannot abort the loop or stall it: a transient error,
or a successful transfer of at least one requested byte. -/
def SfStep.progressive : SfStep → Bool
  | .eagain => true
  | .eintr => true
  | .fatal => false
  | .transfer k => decide (1 ≤ k)

/-- Number of successful-transfer entries in an oracle. -/
def transferCount (σ : List SfStep) : Nat :=
  σ.countP fun s => match s with | .transfer _ => true | _ => false

/-- The `while remaining > 0` sendfile loop shared by
`ops.rs::sendfile_impl` on linux (lines 126-143) and by `do_send` on macOS
(lines 77-108): both start at offset 0 with `remaining = fileLen`, retry the
same call on a transient error without touching `offset`, `remaining` or the
output, advance `offset` and decrement `remaining` by the bytes the kernel
reports on success, stop with 0 when the kernel reports a zero-byte transfer,
and abort with -1 on any other error. `dest` accumulates the bytes delivered
to the output descriptor; `none` means the oracle ran out while the loop was
still running. -/
def sendfileGo (content : Bytes) (σ : List SfStep) (offset remaining : Nat)
    (dest : Bytes) : Option (Int × Bytes) :=
  if remaining = 0 then some (0, dest)
  else
    match σ with
    | [] => none
    | .eagain :: σ' => sendfileGo content σ' offset remaining dest
    | .eintr :: σ' => sendfileGo content σ' offset remaining dest
    | .fatal :: _ => some (-1, dest)
    | .transfer k :: σ' =>
      let n := min k (min remaining (content.length - offset))
      if n = 0 then some (0, dest)
      else sendfileGo content σ' (offset + n) (remaining - n)
        (dest ++ (content.drop offset).take n)

/-- `ops.rs::sendfile_impl` on linux (lines 120-147) and macOS (lines 71-117):
open the file (failure returns -1 with nothing written), read its length from
metadata, and run the sendfile loop from offset 0. -/
def sendfile_impl (fs : String → Option Bytes) (path : String) (σ : List SfStep) :
    Option (Int × Bytes) :=
  match fs path with
  | none => some (-1, [])
  | some content => sendfileGo content σ 0 content.length []

/-- `ops.rs::process_file` (lines 177-187): a null or non-UTF-8 path returns
-1; otherwise dispatch to `sendfile_impl`. -/
def process_file (fs : String → Option Bytes) (path : Option String)
    (σ : List SfStep) : Option (Int × Bytes) :=
  match path with
  | none => some (-1, [])
  | some p => sendfile_impl fs p σ

/-! ## ops.rs: transfer engine (fallback buffered-copy path) -/

/-- Observable action of the fallback copy loop on the output descriptor:
a write of a byte chunk, or the descriptor being closed. -/
inductive FbEvent where
  | write (bytes : Bytes) : FbEvent
  | close : FbEvent
  deriving Repr, DecidableEq

/-- Outcome of one iteration of the fallback loop (`ops.rs` lines 161-171):
`iter k` is a successful `file.read` of `min k (min 65536 (len - pos))`
bytes (short reads allowed via `k`) followed by a successful `write_all`;
`readErr` is a failing read; `writeErr k` is a successful read of that many
bytes whose `write_all` fails. -/
inductive FbStep where
  | iter (k : Nat) : FbStep
  | readErr : FbStep
  | writeErr (k : Nat) : FbStep
  deriving Repr, DecidableEq

/-- The fallback loop of `ops.rs::sendfile_impl` (lines 150-174, platforms
without sendfile). The borrowed output descriptor is wrapped in an owning
`File` via `File::from_raw_fd` (line 159); dropping that wrapper closes the
descriptor, which is modelled by a `FbEvent.close` event. The success path
(`Ok(0)` read at end of file, line 163) breaks the loop and reaches
`std::mem::forget(out)` (line 172), so no close happens there; both `return -1`
paths (lines 166-169) drop `out` and therefore close the descriptor. -/
def sendfileFallbackGo (content : Bytes) (σ : List FbStep) (pos : Nat)
    (events : List FbEvent) : Option (Int × List FbEvent) :=
  if pos = content.length then some (0, events)
  else
    match σ with
    | [] => none
    | .readErr :: _ => some (-1, events ++ [.close])
    | .writeErr _ :: _ => some (-1, events ++ [.close])
    | .iter k :: σ' =>
      let n := min k (min 65536 (content.length - pos))
      if n = 0 then some (0, events)
      else sendfileFallbackGo content σ' (pos + n)
        (events ++ [.write ((content.drop pos).take n)])

/-- The fallback `sendfile_impl` entry (lines 155-158): open failure returns
-1 before `File::from_raw_fd` is reached, so the descriptor is untouched. -/
def sendfile_impl_fallback (fs : String → Option Bytes) (path : String)
    (σ : List FbStep) : Option (Int × List FbEvent) :=
  match fs path with
  | none => some (-1, [])
  | some content => sendfileFallbackGo content σ 0 []

/-! ## Helper lemmas -/

/-- With `remaining = 0` the `while remaining > 0` loop is never entered:
the engine returns 0 at once, consuming no syscall and writing nothing new. -/
theorem sendfileGo_zero (c : Bytes) (σ : List SfStep) (o : Nat) (d : Bytes) :
    sendfileGo c σ o 0 d = some (0, d) := by
  cases σ with
  | nil => simp [sendfileGo]
  | cons s σ' => cases s <;> simp [sendfileGo]

/-- Loop invariant for the sendfile loop: starting from a state where
`offset + remaining` equals the file length and `dest` is the file's first
`offset` bytes, an oracle of transient errors and nonempty transfers with at
least `remaining` transfers drives the loop to completion: status 0 and the
destination equal to the whole file. -/
theorem sendfileGo_complete (c : Bytes) (σ : List SfStep) :
    ∀ (offset remaining : Nat) (dest : Bytes),
      offset + remaining = c.length →
      dest = c.take offset →
      (∀ s ∈ σ, s.progressive = true) →
      remaining ≤ transferCount σ →
      sendfileGo c σ offset remaining dest = some (0, c) := by
  induction σ with
  | nil =>
    intro offset remaining dest hlen hdest _ hcount
    have hr : remaining = 0 := by simpa [transferCount] using hcount
    subst hr
    have ho : offset = c.length := by omega
    rw [sendfileGo_zero, hdest, ho, List.take_length]
  | cons s σ' ih =>
    intro offset remaining dest hlen hdest hprog hcount
    by_cases hr : remaining = 0
    · subst hr
      have ho : offset = c.length := by omega
      rw [sendfileGo_zero, hdest, ho, List.take_length]
    · cases s with
      | eagain =>
        have hc : remaining ≤ transferCount σ' := by
          simpa [transferCount, List.countP_cons] using hcount
        simp only [sendfileGo, if_neg hr]
        exact ih offset remaining dest hlen hdest (fun s hs => hprog s (by simp [hs])) hc
      | eintr =>
        have hc : remaining ≤ transferCount σ' := by
          simpa [transferCount, List.countP_cons] using hcount
        simp only [sendfileGo, if_neg hr]
        exact ih offset remaining dest hlen hdest (fun s hs => hprog s (by simp [hs])) hc
      | fatal =>
        have : SfStep.progressive .fatal = true := hprog .fatal (by simp)
        simp [SfStep.progressive] at this
      | transfer k =>
        have hk : 1 ≤ k := by
          have := hprog (.transfer k) (by simp)
          simpa [SfStep.progressive] using this
        have havail : c.length - offset = remaining := by omega
        have hn_eq : min k (min remaining (c.length - offset)) = min k remaining := by
          rw [havail, Nat.min_self]
        have hn1 : 1 ≤ min k remaining := by
          refine Nat.le_min.mpr ⟨hk, ?_⟩
          omega
        have hnz : ¬ (min k (min remaining (c.length - offset)) = 0) := by
          rw [hn_eq]; omega
        simp only [sendfileGo, if_neg hr, if_neg hnz]
        refine ih (offset + min k (min remaining (c.length - offset)))
          (remaining - min k (min remaining (c.length - offset))) _ ?_ ?_
          (fun s hs => hprog s (by simp [hs])) ?_
        · rw [hn_eq]; omega
        · rw [hdest, ← List.take_add]
        · have hc : remaining ≤ transferCount σ' + 1 := by
            simpa [transferCount, List.countP_cons] using hcount
          rw [hn_eq]; omega

/-! ## Claim theorems -/

/-- Claim C1 (code bug): the fallback `sendfile_impl` is supposed to borrow
the output descriptor and never close it, but on its failure paths the owning
`File` wrapper created by `File::from_raw_fd` is dropped, closing the caller's
descriptor. Concretely: a one-byte file whose first `write_all` fails makes
the engine return -1 after closing the borrowed descriptor (the success path,
second conjunct, reaches `mem::forget` and does not close it). -/
theorem fallback_error_closes_borrowed_fd :
    sendfile_impl_fallback (fun _ => some [1]) "f" [FbStep.writeErr 1]
      = some (-1, [FbEvent.close]) ∧
    sendfile_impl_fallback (fun _ => some [1]) "f" [FbStep.iter 1]
      = some (0, [FbEvent.write [1]]) := by
  constructor <;> rfl

/-- Claim C2: when the bulk-copy primitive fails only transiently (a bounded
number of `EAGAIN`/`EINTR` outcomes) and otherwise makes progress,
`process_file` retries the failed call with `offset`, `remaining` and the
output unchanged, eventually returns 0, and the destination receives exactly
the source file's bytes. -/
theorem transferFile_transient_retry_completes
    (fs : String → Option Bytes) (p : String) (c : Bytes) (σ τ : List SfStep)
    (offset remaining : Nat) (dest : Bytes)
    (h : fs p = some c) (hprog : ∀ s ∈ σ, s.progressive = true)
    (hcount : c.length ≤ transferCount σ) :
    process_file fs (some p) σ = some (0, c) ∧
    sendfileGo c (SfStep.eagain :: τ) offset remaining dest
      = sendfileGo c τ offset remaining dest ∧
    sendfileGo c (SfStep.eintr :: τ) offset remaining dest
      = sendfileGo c τ offset remaining dest := by
  refine ⟨?_, ?_, ?_⟩
  · show sendfile_impl fs p σ = some (0, c)
    rw [sendfile_impl, h]
    exact sendfileGo_complete c σ 0 c.length [] (by omega) (by simp) hprog hcount
  · by_cases hr : remaining = 0
    · rw [hr, sendfileGo_zero, sendfileGo_zero]
    · simp [sendfileGo, hr]
  · by_cases hr : remaining = 0
    · rw [hr, sendfileGo_zero, sendfileGo_zero]
    · simp [sendfileGo, hr]

/-- Witness for C2 at a concrete file `[1, 2, 3]` and an oracle mixing
transient errors with short transfers. -/
theorem transferFile_transient_retry_completes_witness :
    process_file (fun _ => some [1, 2, 3]) (some "f")
      [SfStep.eagain, SfStep.transfer 1, SfStep.eintr, SfStep.transfer 1,
        SfStep.transfer 9] = some (0, [1, 2, 3]) ∧
    sendfileGo [1, 2, 3] (SfStep.eagain :: [SfStep.transfer 9]) 0 3 []
      = sendfileGo [1, 2, 3] [SfStep.transfer 9] 0 3 [] ∧
    sendfileGo [1, 2, 3] (SfStep.eintr :: [SfStep.transfer 9]) 0 3 []
      = sendfileGo [1, 2, 3] [SfStep.transfer 9] 0 3 [] :=
  transferFile_transient_retry_completes (fun _ => some [1, 2, 3]) "f" [1, 2, 3]
    [SfStep.eagain, SfStep.transfer 1, SfStep.eintr, SfStep.transfer 1,
      SfStep.transfer 9] [SfStep.transfer 9] 0 3 [] rfl (by decide) (by decide)

/-- Claim C3: for every accepted asynchronous read, regardless of the read
outcome, the worker invokes the notifier exactly once with the request id
truncated to 32 bits, and the notifier writes the 4-byte big-endian encoding
of that 32-bit value (here checked both against `u32::to_be_bytes` and by
re-decoding the bytes most-significant first). -/
theorem async_notifies_once_truncated_be
    (fs : String → Option Bytes) (p : String) (c : Bytes) (rid : Nat)
    (oc : ReadOutcome) (fifo : Bytes) (h : fs p = some c) :
    (file_get_contents_async fs (some p) rid oc).notifies = [rid % 2 ^ 32] ∧
    (file_get_contents_async fs (some p) rid oc).notifies.length = 1 ∧
    (notify_ready (some fifo) (rid % 2 ^ 32)).2 = u32BeBytes (rid % 2 ^ 32) ∧
    (u32BeBytes (rid % 2 ^ 32)).length = 4 ∧
    beValue (u32BeBytes (rid % 2 ^ 32)) = rid % 2 ^ 32 := by
  refine ⟨?_, ?_, rfl, rfl, ?_⟩
  · simp [file_get_contents_async, h, workerNotifies]
  · simp [file_get_contents_async, h, workerNotifies]
  · have hlt : rid % 2 ^ 32 < 2 ^ 32 := Nat.mod_lt _ (by norm_num)
    simp only [beValue, u32BeBytes, List.foldl]
    omega

/-- Witness for C3: request id `2 ^ 32 + 5` truncates to 5 on the wire. -/
theorem async_notifies_once_truncated_be_witness :
    (file_get_contents_async (fun _ => some [7]) (some "f") (2 ^ 32 + 5)
      ReadOutcome.failed).notifies = [(2 ^ 32 + 5) % 2 ^ 32] ∧
    (file_get_contents_async (fun _ => some [7]) (some "f") (2 ^ 32 + 5)
      ReadOutcome.failed).notifies.length = 1 ∧
    (notify_ready (some []) ((2 ^ 32 + 5) % 2 ^ 32)).2
      = u32BeBytes ((2 ^ 32 + 5) % 2 ^ 32) ∧
    (u32BeBytes ((2 ^ 32 + 5) % 2 ^ 32)).length = 4 ∧
    beValue (u32BeBytes ((2 ^ 32 + 5) % 2 ^ 32)) = (2 ^ 32 + 5) % 2 ^ 32 :=
  async_notifies_once_truncated_be (fun _ => some [7]) "f" [7] (2 ^ 32 + 5)
    ReadOutcome.failed [] rfl

/-- Claim C4: for every readable file of content `c` (length `L`), the
synchronous read returns a non-null buffer equal to `c ++ [0]`: length
`L + 1`, first `L` bytes the file content, last byte 0. -/
theorem file_get_contents_content_spec
    (fs : String → Option Bytes) (p : String) (c : Bytes) (h : fs p = some c) :
    file_get_contents fs (some p) = some (c ++ [0]) ∧
    (c ++ [0]).length = c.length + 1 ∧
    (c ++ [0]).take c.length = c ∧
    (c ++ [0]).getLast? = some 0 := by
  refine ⟨?_, by simp, by simp, List.getLast?_concat c⟩
  simp [file_get_contents, h]

/-- Witness for C4 on the concrete file `[10, 0, 20]`. -/
theorem file_get_contents_content_spec_witness :
    file_get_contents (fun _ => some [10, 0, 20]) (some "f")
      = some ([10, 0, 20] ++ [0]) ∧
    ([10, 0, 20] ++ [0]).length = [10, 0, 20].length + 1 ∧
    ([10, 0, 20] ++ [0]).take [10, 0, 20].length = [10, 0, 20] ∧
    ([10, 0, 20] ++ [0]).getLast? = some 0 :=
  file_get_contents_content_spec (fun _ => some [10, 0, 20]) "f" [10, 0, 20] rfl

/-- Claim C5: for every asynchronous read whose source opens with length `L`,
the buffer handed back at the moment of return has size exactly `L + 1`, its
final byte (index `L`) is already 0, and every byte below `L` is still
unfilled (`none`) when the address reaches the caller. -/
theorem async_buffer_at_return_spec
    (fs : String → Option Bytes) (p : String) (c : Bytes) (rid i : Nat)
    (oc : ReadOutcome) (h : fs p = some c) (hi : i < c.length) :
    (file_get_contents_async fs (some p) rid oc).buffer
      = some (List.replicate c.length (none : Option Nat) ++ [some 0]) ∧
    (List.replicate c.length (none : Option Nat) ++ [some 0]).length
      = c.length + 1 ∧
    (List.replicate c.length (none : Option Nat) ++ [some 0])[c.length]?
      = some (some 0) ∧
    (List.replicate c.length (none : Option Nat) ++ [some 0])[i]? = some none := by
  refine ⟨?_, by simp, ?_, ?_⟩
  · simp [file_get_contents_async, h]
  · have h0 := List.getElem?_concat_length
      (List.replicate c.length (none : Option Nat)) (some 0)
    rw [List.length_replicate] at h0
    exact h0
  · rw [List.getElem?_append_left (by simpa using hi)]
    simp [hi]

/-- Witness for C5 on the concrete two-byte file `[7, 8]`, checking byte 0. -/
theorem async_buffer_at_return_spec_witness :
    (file_get_contents_async (fun _ => some [7, 8]) (some "f") 9
      ReadOutcome.ok).buffer
      = some (List.replicate [7, 8].length (none : Option Nat) ++ [some 0]) ∧
    (List.replicate [7, 8].length (none : Option Nat) ++ [some 0]).length
      = [7, 8].length + 1 ∧
    (List.replicate [7, 8].length (none : Option Nat) ++ [some 0])[[7, 8].length]?
      = some (some 0) ∧
    (List.replicate [7, 8].length (none : Option Nat) ++ [some 0])[0]?
      = some none :=
  async_buffer_at_return_spec (fun _ => some [7, 8]) "f" [7, 8] 9 0
    ReadOutcome.ok rfl (by decide)

/-- Claim C6: a path that fails to open makes the asynchronous read return
null immediately, with no worker spawned and hence no notifier call ever made
for the supplied request id. -/
theorem async_open_failure_null_no_notify
    (fs : String → Option Bytes) (p : String) (rid : Nat) (oc : ReadOutcome)
    (h : fs p = none) :
    (file_get_contents_async fs (some p) rid oc).buffer = none ∧
    (file_get_contents_async fs (some p) rid oc).notifies = [] := by
  constructor <;> simp [file_get_contents_async, h]

/-- Witness for C6 on an empty filesystem. -/
theorem async_open_failure_null_no_notify_witness :
    (file_get_contents_async (fun _ => none) (some "missing") 3
      ReadOutcome.ok).buffer = none ∧
    (file_get_contents_async (fun _ => none) (some "missing") 3
      ReadOutcome.ok).notifies = [] :=
  async_open_failure_null_no_notify (fun _ => none) "missing" 3
    ReadOutcome.ok rfl

/-- Claim C7: `fifo_path` resolution priority: registry first, then the
environment override, then the current working directory, and the literal
`"../file"` fallback when the working directory is unavailable. -/
theorem fifo_path_priority (d o w : String) (env cwd : Option String) :
    fifo_path (some d) env cwd = d ++ "/bridge.fifo" ∧
    fifo_path none (some o) cwd = o ++ "/bridge.fifo" ∧
    fifo_path none none (some w) = w ++ "/bridge.fifo" ∧
    fifo_path none none none = "../file" ++ "/bridge.fifo" :=
  ⟨rfl, rfl, rfl, rfl⟩

/-- Claim C8: `link` always returns 0; the first call stores its directory,
and any later call — whatever its argument or environment — leaves the stored
directory and the resolved side-channel path unchanged while still
reporting success. -/
theorem link_idempotent_status_zero (st arg arg' cwd cwd' env ecwd : Option String)
    (p : String) :
    (link st arg cwd).2 = 0 ∧
    (link none (some p) cwd).1 = some p ∧
    (link (some p) arg' cwd').1 = some p ∧
    (link (some p) arg' cwd').2 = 0 ∧
    fifo_path (link (some p) arg' cwd').1 env ecwd = fifo_path (some p) env ecwd :=
  ⟨rfl, rfl, rfl, rfl, rfl⟩

/-- Claim C9: a zero-length source file makes `process_file` return 0 at
once, with nothing written to the output descriptor — even when the very
first syscall outcome in the oracle would be a fatal error, the loop never
issues it. -/
theorem transferFile_empty_file (fs : String → Option Bytes) (p : String)
    (σ : List SfStep) (h : fs p = some []) :
    process_file fs (some p) σ = some (0, []) := by
  show sendfile_impl fs p σ = some (0, [])
  rw [sendfile_impl, h]
  exact sendfileGo_zero [] σ 0 []

/-- Witness for C9: empty file, oracle holding a fatal outcome that is never
reached. -/
theorem transferFile_empty_file_witness :
    process_file (fun _ => some []) (some "f") [SfStep.fatal] = some (0, []) :=
  transferFile_empty_file (fun _ => some []) "f" [SfStep.fatal] rfl

/-- Claim C10: when no file exists at the resolved side-channel path,
`notify_ready` neither creates the file nor writes any byte, and it returns
normally (it is a total function on this state). -/
theorem notify_ready_missing_fifo_noop (rid : Nat) :
    notify_ready none rid = (none, []) :=
  rfl

end RippleKernel
